import Mathlib

/-!
# firebolt: connection factory, built-in node registrations, bounded-lag source

A shallow embedding of

* `node/elasticsearch/connectionfactory.go` (the rotating Elasticsearch client factory),
* `executor/noderegistrar.go` (registration of the built-in source and node types),
* the start-up emission rule of the Kafka consumer source,

followed by the properties established about them.

Go strings are modelled by `String` (lists of characters), `int`/`int64` by `Int` with an
explicit wrap-around where the code does arithmetic, the outside world (connection attempts,
the random source, the cancellation context, the failure metric) by an explicit `World` value
threaded through every call.  The embedding is sequential: the read/write lock of the factory
is not modelled.
-/

namespace Firebolt

/-! ## Go library functions used by the factory -/

/-- Pieces of a character list between occurrences of `sep` (`strings.Split` with a
one-character separator): the empty input yields one empty piece. -/
def splitChars (sep : Char) : List Char → List (List Char)
  | [] => [[]]
  | c :: cs =>
    if c = sep then [] :: splitChars sep cs
    else
      match splitChars sep cs with
      | [] => [[c]]
      | p :: ps => (c :: p) :: ps

/-- Go `strings.Split(s, sep)` for a one-character separator. -/
def strings_Split (s : String) (sep : Char) : List String :=
  (splitChars sep s.data).map String.mk

/-- Go `unicode.IsSpace`: the Unicode White_Space code points. -/
def isSpace (c : Char) : Bool :=
  let n := c.toNat
  (9 ≤ n && n ≤ 13) || n == 32 || n == 133 || n == 160 || n == 5760 ||
    (8192 ≤ n && n ≤ 8202) || n == 8232 || n == 8233 || n == 8239 || n == 8287 || n == 12288

/-- Go `strings.TrimSpace`: leading and trailing white space removed. -/
def strings_TrimSpace (s : String) : String :=
  String.mk ((s.data.dropWhile isSpace).reverse.dropWhile isSpace).reverse

/-- The string `t` is the string `u` with its surrounding white space removed: `u` is `t`
between two runs of white space, and `t` neither starts nor ends with white space. -/
def TrimmedOf (t u : String) : Prop :=
  (∃ pre post : List Char, (∀ c ∈ pre, isSpace c = true) ∧ (∀ c ∈ post, isSpace c = true) ∧
    u.data = pre ++ t.data ++ post) ∧
  (∀ c, t.data.head? = some c → isSpace c = false) ∧
  (∀ c, t.data.getLast? = some c → isSpace c = false)

/-- Go `rand.Intn(n)` fed by the raw value `raw` of the random source: a value in `[0, n)`,
and a panic (`none`) when `n ≤ 0`. -/
def rand_Intn (raw : Nat) (n : Nat) : Option Nat :=
  if n = 0 then none else some (raw % n)

/-- Wrap-around of a mathematical integer into the `int64` range, as `atomic.AddInt64`
does on overflow. -/
def wrapInt64 (x : Int) : Int :=
  (x + 2 ^ 63) % 2 ^ 64 - 2 ^ 63

/-! ## Data model of the connection factory -/

/-- An `*elastic.Client` as built by `elastic.NewSimpleClient(SetURL, SetBasicAuth, ...)`:
its endpoint, its credentials, and the index of the `NewSimpleClient` call that built it. -/
structure Client where
  url : String
  username : String
  password : String
  serial : Nat
deriving DecidableEq, Repr

/-- The outside world of the factory. `dialOk k u` tells whether the `k`-th call of
`elastic.NewSimpleClient`, made on endpoint `u`, returns `err == nil`; `randSrc k` is the raw
value behind the `k`-th `rand.Intn`; `ctxDone` tells whether `ctx.Done()` ever becomes ready.
`dials` and `rands` count the calls made so far, `failures` is the metric
`ElasticsearchConnectionFailures`, `reconnects` counts the invocations of `reconnect`. -/
structure World where
  dialOk : Nat → String → Bool
  randSrc : Nat → Nat
  ctxDone : Bool
  dials : Nat
  rands : Nat
  failures : Nat
  reconnects : Nat

/-- The struct `esBulkServiceFactory` (`ctx`, `connectLock` and `metrics` live in `World`). -/
structure esBulkServiceFactory where
  esURL : List String
  esUsername : String
  esPassword : String
  esClient : Option Client
  reconnectBatches : Int
  timeoutMs : Int
  batchCount : Int
deriving DecidableEq, Repr

/-- The `bulkService` handed out: `esClient.Bulk().Timeout(...)`. -/
structure bulkService where
  client : Option Client
  timeout : String
deriving DecidableEq, Repr

/-- How a call ends: it returns a value, waits forever, or panics. -/
inductive Outcome (α : Type) where
  | returned (a : α) (w : World)
  | blocked (w : World)
  | panicked (w : World)

/-- The world in which a call ended (or got stuck). -/
def Outcome.world {α : Type} : Outcome α → World
  | .returned _ w => w
  | .blocked w => w
  | .panicked w => w

/-- The value a call returned, if it returned. -/
def Outcome.value? {α : Type} : Outcome α → Option α
  | .returned a _ => some a
  | .blocked _ => none
  | .panicked _ => none

/-- Whether the call waits forever. -/
def Outcome.isBlocked {α : Type} : Outcome α → Bool
  | .blocked _ => true
  | _ => false

/-- Whether the call panics. -/
def Outcome.isPanicked {α : Type} : Outcome α → Bool
  | .panicked _ => true
  | _ => false

/-- Which `return` statement of `reconnect` was taken. -/
inductive Exit where
  | installed
  | cancelled
deriving DecidableEq, Repr

/-- What one pass through the body of the `for` loop of `reconnect` does. -/
inductive LoopStep where
  | exit (e : esBulkServiceFactory) (x : Exit) (w : World)
  | next (e : esBulkServiceFactory) (w : World)
  | block (w : World)
  | panic (w : World)

/-! ## Operations of the connection factory -/

/-- One pass through the body of the `for` loop of `reconnect`: pick an endpoint at random,
try to connect; on success install the client and return; on failure count the failure and
enter `select { case <-ctx.Done(): return }`, which returns once the context is cancelled and
otherwise waits forever. No path reaches the end of the body. -/
def reconnectIter (e : esBulkServiceFactory) (w : World) : LoopStep :=
  match rand_Intn (w.randSrc w.rands) e.esURL.length with
  | none => .panic w
  | some i =>
    let w1 := { w with rands := w.rands + 1 }
    match e.esURL[i]? with
    | none => .panic w1
    | some u =>
      let tUrl := strings_TrimSpace u
      let w2 := { w1 with dials := w1.dials + 1 }
      if w.dialOk w.dials tUrl then
        .exit { e with esClient := some ⟨tUrl, e.esUsername, e.esPassword, w.dials⟩ }
          .installed w2
      else
        let w3 := { w2 with failures := w2.failures + 1 }
        if w3.ctxDone then .exit e .cancelled w3 else .block w3

/-- The `for { ... }` of `reconnect`, with fuel; `none` when the fuel runs out. -/
def reconnectLoop : Nat → esBulkServiceFactory → World →
    Option (Outcome (esBulkServiceFactory × Exit))
  | 0, _, _ => none
  | fuel + 1, e, w =>
    match reconnectIter e w with
    | .exit e1 x w1 => some (.returned (e1, x) w1)
    | .next e1 w1 => reconnectLoop fuel e1 w1
    | .block w1 => some (.blocked w1)
    | .panic w1 => some (.panicked w1)

/-- The method `reconnect`. One unit of fuel is enough for the loop (`reconnectLoop_succ`). -/
def reconnect (e : esBulkServiceFactory) (w : World) :
    Outcome (esBulkServiceFactory × Exit) :=
  let w0 := { w with reconnects := w.reconnects + 1 }
  (reconnectLoop 1 e w0).getD (.blocked w0)

/-- The function `newEsBulkServiceFactory`: build the struct, then make the initial
connection. -/
def newEsBulkServiceFactory (url esUsername esPassword : String)
    (reconnectBatches timeoutMs : Int) (w : World) : Outcome esBulkServiceFactory :=
  let factory : esBulkServiceFactory :=
    { esURL := strings_Split url ','
      esUsername := esUsername
      esPassword := esPassword
      esClient := none
      reconnectBatches := reconnectBatches
      timeoutMs := timeoutMs
      batchCount := 0 }
  match reconnect factory w with
  | .returned (f, _) w1 => .returned f w1
  | .blocked w1 => .blocked w1
  | .panicked w1 => .panicked w1

/-- The handle built from the current client: `e.esClient.Bulk().Timeout("<timeoutMs>ms")`.
`Bulk()` only stores its receiver, so on a nil client it yields a handle on nil. -/
def handleOf (e : esBulkServiceFactory) : bulkService :=
  { client := e.esClient, timeout := toString e.timeoutMs ++ "ms" }

/-- The method `BulkService`: add one to `batchCount`; when the new count equals
`reconnectBatches`, reconnect and store 0; then hand out a handle on the current client. -/
def BulkService (e : esBulkServiceFactory) (w : World) :
    Outcome (esBulkServiceFactory × bulkService) :=
  let count := wrapInt64 (e.batchCount + 1)
  let e1 := { e with batchCount := count }
  if count = e.reconnectBatches then
    match reconnect e1 w with
    | .returned (e2, _) w2 =>
      let e3 := { e2 with batchCount := 0 }
      .returned (e3, handleOf e3) w2
    | .blocked w2 => .blocked w2
    | .panicked w2 => .panicked w2
  else
    .returned (e1, handleOf e1) w

/-- A sequential run of `n` calls of `BulkService`, the handles dropped. -/
def runCalls : Nat → esBulkServiceFactory → World → Outcome esBulkServiceFactory
  | 0, e, w => .returned e w
  | n + 1, e, w =>
    match runCalls n e w with
    | .returned e1 w1 =>
      match BulkService e1 w1 with
      | .returned (e2, _) w2 => .returned e2 w2
      | .blocked w2 => .blocked w2
      | .panicked w2 => .panicked w2
    | .blocked w1 => .blocked w1
    | .panicked w1 => .panicked w1

/-- A freshly built factory followed by a sequential run of `n` calls of `BulkService`. -/
def freshRun (url esUsername esPassword : String) (reconnectBatches timeoutMs : Int)
    (w : World) (n : Nat) : Outcome esBulkServiceFactory :=
  match newEsBulkServiceFactory url esUsername esPassword reconnectBatches timeoutMs w with
  | .returned e w1 => runCalls n e w1
  | .blocked w1 => .blocked w1
  | .panicked w1 => .panicked w1

/-- The endpoint the next pass of the loop of `reconnect` dials:
`strings.TrimSpace(e.esURL[rand.Intn(len(e.esURL))])`. -/
def chosenEndpoint (e : esBulkServiceFactory) (w : World) : String :=
  strings_TrimSpace ((e.esURL[w.randSrc w.rands % e.esURL.length]?).getD "")

/-- The client `c` was installed by a successful connection attempt made so far. -/
def Installed (w : World) (c : Client) : Prop :=
  c.serial < w.dials ∧ w.dialOk c.serial c.url = true

instance (w : World) (c : Client) : Decidable (Installed w c) := by
  unfold Installed
  infer_instance

/-- A world in which the connection attempts numbered `start`, ..., `start + len - 1` fail
and all others succeed; `done` tells whether the context is ever cancelled. -/
def worldOutage (start len : Nat) (done : Bool) : World :=
  { dialOk := fun i _ => !(decide (start ≤ i) && decide (i < start + len))
    randSrc := fun i => i
    ctxDone := done
    dials := 0
    rands := 0
    failures := 0
    reconnects := 0 }

/-- The factory returned by
`newEsBulkServiceFactory "es1:9200, es2:9200" "user" "secret" 1 100` when the initial
connection attempt succeeds: rotation on every call. -/
def sampleFactory : esBulkServiceFactory :=
  { esURL := ["es1:9200", " es2:9200"]
    esUsername := "user"
    esPassword := "secret"
    esClient := some ⟨"es1:9200", "user", "secret", 0⟩
    reconnectBatches := 1
    timeoutMs := 100
    batchCount := 0 }

/-- The world right after that construction, when only connection attempt number 1 (the one
after the initial connection) fails. -/
def sampleWorld (done : Bool) : World :=
  { worldOutage 1 1 done with dials := 1, rands := 1, reconnects := 1 }

/-! ## Built-in registrations (`executor/noderegistrar.go`) -/

/-- A Go type as seen through `reflect.TypeOf`. -/
inductive GoType where
  | uint8
  | string
  | named (pkg name : String)
  | slice (elem : GoType)
  | ptr (elem : GoType)
deriving DecidableEq, Repr

/-- Go `reflect.Type.Elem` on a pointer or slice type (it panics on the other kinds, which
are returned unchanged here). -/
def GoType.Elem : GoType → GoType
  | .ptr t => t
  | .slice t => t
  | t => t

/-- A factory closure `func() node.Source` or `func() node.Node`, identified by the type of
the value it returns. -/
structure NodeFactory where
  builds : GoType
deriving DecidableEq, Repr

/-- The two registration methods of the node registry that `node.GetRegistry()` returns. Their
code lives in another package; the built-in registrations are embedded over any registry `R`
offering them. A `reflect.Type` argument may be nil, hence `Option GoType`. -/
structure RegistryOps (R : Type) where
  RegisterSourceType : R → String → NodeFactory → Option GoType → R
  RegisterNodeType : R → String → NodeFactory → Option GoType → Option GoType → R

/-- The function `RegisterBuiltinSourceTypes`, on the registry `r` that `node.GetRegistry()`
returns. -/
def RegisterBuiltinSourceTypes {R : Type} (ops : RegistryOps R) (r : R) : R :=
  ops.RegisterSourceType r "kafkaconsumer"
    ⟨.ptr (.named "kafkaconsumer" "KafkaConsumer")⟩ (some (.slice .uint8))

/-- The function `RegisterBuiltinNodeTypes`, on the registry `r` that `node.GetRegistry()`
returns. -/
def RegisterBuiltinNodeTypes {R : Type} (ops : RegistryOps R) (r : R) : R :=
  let r1 := ops.RegisterNodeType r "syslogparser"
    ⟨.ptr (.named "syslogparser" "SyslogParser")⟩ (some (.slice .uint8)) (some .string)
  let r2 := ops.RegisterNodeType r1 "kafkaproducer"
    ⟨.ptr (.named "kafkaproducer" "KafkaProducer")⟩
    (some (GoType.ptr (.named "firebolt" "ProduceRequest")).Elem) none
  let r3 := ops.RegisterNodeType r2 "errorkafkaproducer"
    ⟨.ptr (.named "kafkaproducer" "ErrorProducer")⟩
    (some (.ptr (.named "firebolt" "EventError"))) none
  ops.RegisterNodeType r3 "elasticsearch"
    ⟨.ptr (.named "elasticsearch" "Elasticsearch")⟩
    (some (.named "elasticsearch" "IndexRequest")) (some (.named "elasticsearch" "IndexRequest"))

/-- One registration call with its arguments. -/
inductive RegCall where
  | source (name : String) (factory : NodeFactory) (outputType : Option GoType)
  | node (name : String) (factory : NodeFactory) (inputType outputType : Option GoType)
deriving DecidableEq, Repr

/-- The name a call registers. -/
def RegCall.name : RegCall → String
  | .source n _ _ => n
  | .node n _ _ _ => n

/-- The input type a call declares; a `RegisterSourceType` call has none. -/
def RegCall.inputType : RegCall → Option GoType
  | .source _ _ _ => none
  | .node _ _ i _ => i

/-- The output type a call declares. -/
def RegCall.outputType : RegCall → Option GoType
  | .source _ _ o => o
  | .node _ _ _ o => o

/-- Whether the call is a `RegisterSourceType` call. -/
def RegCall.isSource : RegCall → Bool
  | .source _ _ _ => true
  | .node _ _ _ _ => false

/-- Make the call `c` on the registry `r`. -/
def RegCall.apply {R : Type} (ops : RegistryOps R) (r : R) : RegCall → R
  | .source n f o => ops.RegisterSourceType r n f o
  | .node n f i o => ops.RegisterNodeType r n f i o

/-- The registry that only records the calls made on it, most recent first. -/
def traceOps : RegistryOps (List RegCall) where
  RegisterSourceType := fun r n f o => RegCall.source n f o :: r
  RegisterNodeType := fun r n f i o => RegCall.node n f i o :: r

/-- The most recent recorded call that registered `name`. -/
def traceLookup (r : List RegCall) (name : String) : Option RegCall :=
  r.find? (fun c => c.name == name)

/-- The calls made when the sources are registered first, most recent first. -/
def builtinCalls : List RegCall :=
  RegisterBuiltinNodeTypes traceOps (RegisterBuiltinSourceTypes traceOps [])

/-- The calls made when the nodes are registered first, most recent first. -/
def builtinCallsSwapped : List RegCall :=
  RegisterBuiltinSourceTypes traceOps (RegisterBuiltinNodeTypes traceOps [])

/-! ## Start-up emission of the Kafka consumer source -/

/-- Modelled from the spec: a partition of the consumed topic at start time, given by its
earliest replay position and the position available at start (the code of `KafkaConsumer` is
not among the sources, only its integration test is). -/
structure Partition where
  earliest : Nat
  latest : Nat
deriving DecidableEq, Repr

/-- Modelled from the spec: the available backlog, the distance between the earliest replay
position and the position available at start time. -/
def Partition.availableBacklog (p : Partition) : Nat :=
  p.latest - p.earliest

/-- Modelled from the spec: the offsets a partition emits at start, before live delivery:
`min(ceiling, availableBacklog)` records, oldest first, only records older than the replay
window being dropped. -/
def startupOffsets (ceiling : Nat) (p : Partition) : List Nat :=
  List.range' (p.latest - min ceiling p.availableBacklog) (min ceiling p.availableBacklog)

/-- Modelled from the spec: everything emitted before live delivery begins, as
(partition index, offset) pairs, partition by partition. -/
def startupEmission (ceiling : Nat) : Nat → List Partition → List (Nat × Nat)
  | _, [] => []
  | i, p :: ps => (startupOffsets ceiling p).map (fun o => (i, o)) ++
      startupEmission ceiling (i + 1) ps

/-! ## Auxiliary facts about the factory -/

theorem splitChars_ne_nil (sep : Char) (cs : List Char) : splitChars sep cs ≠ [] := by
  cases cs with
  | nil => simp [splitChars]
  | cons c cs =>
    unfold splitChars
    split
    · simp
    · split <;> simp

theorem strings_Split_ne_nil (s : String) (sep : Char) : strings_Split s sep ≠ [] := by
  simp [strings_Split, splitChars_ne_nil]

/-- The pieces of `splitChars` joined by the separator give the input back. -/
theorem splitChars_intercalate (sep : Char) (cs : List Char) :
    List.intercalate [sep] (splitChars sep cs) = cs := by
  induction cs with
  | nil => simp [splitChars, List.intercalate]
  | cons c cs ih =>
    unfold splitChars
    by_cases hc : c = sep
    · rw [if_pos hc]
      cases hs : splitChars sep cs with
      | nil => exact absurd hs (splitChars_ne_nil sep cs)
      | cons p ps =>
        rw [hs] at ih
        simp only [List.intercalate, List.intersperse, List.flatten_cons, List.nil_append,
          List.singleton_append] at ih ⊢
        rw [ih, hc]
    · rw [if_neg hc]
      cases hs : splitChars sep cs with
      | nil => exact absurd hs (splitChars_ne_nil sep cs)
      | cons p ps =>
        rw [hs] at ih
        dsimp only
        cases ps with
        | nil =>
          simp only [List.intercalate, List.intersperse, List.flatten_cons, List.flatten_nil,
            List.append_nil] at ih ⊢
          rw [ih]
        | cons q qs =>
          simp only [List.intercalate, List.intersperse, List.flatten_cons, List.cons_append] at ih ⊢
          rw [ih]

/-- No piece of `splitChars` contains the separator. -/
theorem splitChars_no_sep (sep : Char) (cs : List Char) :
    ∀ p ∈ splitChars sep cs, sep ∉ p := by
  induction cs with
  | nil =>
    intro p hp
    simp [splitChars] at hp
    subst hp
    simp
  | cons c cs ih =>
    intro p hp
    unfold splitChars at hp
    by_cases hc : c = sep
    · rw [if_pos hc] at hp
      rcases List.mem_cons.mp hp with h | h
      · subst h
        simp
      · exact ih p h
    · rw [if_neg hc] at hp
      cases hs : splitChars sep cs with
      | nil => exact absurd hs (splitChars_ne_nil sep cs)
      | cons q qs =>
        rw [hs] at hp ih
        dsimp only at hp
        rcases List.mem_cons.mp hp with h | h
        · subst h
          intro hmem
          rcases List.mem_cons.mp hmem with h1 | h1
          · exact hc h1.symm
          · exact ih q (List.mem_cons_self _ _) h1
        · exact ih p (List.mem_cons_of_mem _ h)

/-- What `strings.TrimSpace` returns is its argument with the surrounding white space
removed. -/
theorem strings_TrimSpace_trimmed (u : String) : TrimmedOf (strings_TrimSpace u) u := by
  have hdata : (strings_TrimSpace u).data =
      ((u.data.dropWhile isSpace).reverse.dropWhile isSpace).reverse := rfl
  have hm : u.data = u.data.takeWhile isSpace ++ u.data.dropWhile isSpace :=
    (List.takeWhile_append_dropWhile isSpace u.data).symm
  have hr : u.data.dropWhile isSpace =
      ((u.data.dropWhile isSpace).reverse.dropWhile isSpace).reverse ++
        ((u.data.dropWhile isSpace).reverse.takeWhile isSpace).reverse := by
    have h := congrArg List.reverse
      (List.takeWhile_append_dropWhile isSpace (u.data.dropWhile isSpace).reverse)
    rw [List.reverse_append, List.reverse_reverse] at h
    exact h.symm
  refine ⟨⟨u.data.takeWhile isSpace,
    ((u.data.dropWhile isSpace).reverse.takeWhile isSpace).reverse, ?_, ?_, ?_⟩, ?_, ?_⟩
  · intro c hc
    exact List.mem_takeWhile_imp hc
  · intro c hc
    exact List.mem_takeWhile_imp (List.mem_reverse.mp hc)
  · rw [hdata, List.append_assoc, ← hr]
    exact hm
  · intro c hc
    rw [hdata] at hc
    have hne : ((u.data.dropWhile isSpace).reverse.dropWhile isSpace).reverse ≠ [] := by
      intro h0
      rw [h0] at hc
      cases hc
    have hhead : (u.data.dropWhile isSpace).head? = some c := by
      rw [hr, List.head?_append_of_ne_nil _ hne]
      exact hc
    have h := List.head?_dropWhile_not isSpace u.data
    rw [hhead] at h
    exact h
  · intro c hc
    rw [hdata, List.getLast?_reverse] at hc
    have h := List.head?_dropWhile_not isSpace (u.data.dropWhile isSpace).reverse
    rw [hc] at h
    exact h

/-- The pieces of `strings.Split`, as character lists, are those of `splitChars`. -/
theorem strings_Split_data (s : String) (sep : Char) :
    (strings_Split s sep).map String.data = splitChars sep s.data := by
  unfold strings_Split
  rw [List.map_map]
  exact List.map_id _

theorem reconnectIter_ne_next (e : esBulkServiceFactory) (w : World)
    (e1 : esBulkServiceFactory) (w1 : World) : reconnectIter e w ≠ .next e1 w1 := by
  unfold reconnectIter
  split
  · simp
  · split
    · simp
    · dsimp only
      split
      · simp
      · split <;> simp

/-- Any positive amount of fuel gives the loop of `reconnect` the same result as one unit. -/
theorem reconnectLoop_succ (fuel : Nat) (e : esBulkServiceFactory) (w : World) :
    reconnectLoop (fuel + 1) e w = reconnectLoop 1 e w ∧
      (reconnectLoop (fuel + 1) e w).isSome = true := by
  have h := reconnectIter_ne_next e w
  unfold reconnectLoop
  cases hit : reconnectIter e w with
  | exit e1 x w1 => simp
  | next e1 w1 => exact absurd hit (h e1 w1)
  | block w1 => simp
  | panic w1 => simp

/-- What `reconnect` does on a factory with at least one endpoint. -/
theorem reconnect_eq (e : esBulkServiceFactory) (w : World) (h : e.esURL ≠ []) :
    reconnect e w =
      if w.dialOk w.dials (chosenEndpoint e w) = true then
        .returned
          ({ e with
              esClient := some (Client.mk (chosenEndpoint e w) e.esUsername e.esPassword w.dials) },
            .installed)
          { w with reconnects := w.reconnects + 1, rands := w.rands + 1, dials := w.dials + 1 }
      else if w.ctxDone = true then
        .returned (e, .cancelled)
          { w with reconnects := w.reconnects + 1, rands := w.rands + 1, dials := w.dials + 1,
                   failures := w.failures + 1 }
      else
        .blocked
          { w with reconnects := w.reconnects + 1, rands := w.rands + 1, dials := w.dials + 1,
                   failures := w.failures + 1 } := by
  have hlen : e.esURL.length ≠ 0 := by
    intro h0
    exact h (List.length_eq_zero.mp h0)
  have hlt : w.randSrc w.rands % e.esURL.length < e.esURL.length :=
    Nat.mod_lt _ (Nat.pos_of_ne_zero hlen)
  have hget : e.esURL[w.randSrc w.rands % e.esURL.length]? =
      some (e.esURL[w.randSrc w.rands % e.esURL.length]) := List.getElem?_eq_getElem hlt
  unfold reconnect reconnectLoop reconnectIter rand_Intn chosenEndpoint
  simp only [hlen, if_false, hget, Option.getD_some]
  by_cases hd : w.dialOk w.dials
      (strings_TrimSpace (e.esURL[w.randSrc w.rands % e.esURL.length])) = true
  · simp [hd]
  · by_cases hc : w.ctxDone = true
    · simp [hd, hc]
    · simp [hd, hc]

theorem wrapInt64_of_range (x : Int) (h1 : -2 ^ 63 ≤ x) (h2 : x < 2 ^ 63) : wrapInt64 x = x := by
  unfold wrapInt64
  omega

theorem wrapInt64_range (x : Int) : -2 ^ 63 ≤ wrapInt64 x ∧ wrapInt64 x < 2 ^ 63 := by
  unfold wrapInt64
  omega

/-- The counter arithmetic behind the rotation: after `j` calls the counter holds `j % N`
(`j` itself when `N ≤ 0`), and one more increment reaches `N` exactly when `N` divides `j + 1`. -/
theorem count_arith (N : Int) (j : Nat) (hj : (j : Int) + 1 < 2 ^ 63) (bc : Int)
    (hbc : bc = if 1 ≤ N then (j : Int) % N else (j : Int)) :
    wrapInt64 (bc + 1) = bc + 1 ∧
    (bc + 1 = N ↔ (1 ≤ N ∧ N ∣ ((j : Int) + 1))) ∧
    (bc + 1 = N → (0 : Int) = if 1 ≤ N then ((j : Int) + 1) % N else (j : Int) + 1) ∧
    (bc + 1 ≠ N → bc + 1 = if 1 ≤ N then ((j : Int) + 1) % N else (j : Int) + 1) := by
  have hj0 : (0 : Int) ≤ (j : Int) := Int.ofNat_nonneg j
  by_cases hN : 1 ≤ N
  · have hNpos : 0 < N := by omega
    have hNne : N ≠ 0 := by omega
    simp only [if_pos hN] at hbc ⊢
    have hr0 : 0 ≤ (j : Int) % N := Int.emod_nonneg _ hNne
    have hrN : (j : Int) % N < N := Int.emod_lt_of_pos _ hNpos
    have hq : 0 ≤ (j : Int) / N := Int.ediv_nonneg hj0 (by omega)
    have hdec : N * ((j : Int) / N) + (j : Int) % N = j := Int.ediv_add_emod _ _
    have hmul : 0 ≤ N * ((j : Int) / N) := Int.mul_nonneg (by omega) hq
    have hrj : (j : Int) % N ≤ j := by omega
    have hmod : ((j : Int) + 1) % N = ((j : Int) % N + 1) % N := by
      have : (j : Int) + 1 = ((j : Int) % N + 1) + N * ((j : Int) / N) := by omega
      rw [this, Int.add_mul_emod_self_left]
    subst hbc
    refine ⟨wrapInt64_of_range _ (by omega) (by omega), ?_, ?_, ?_⟩
    · constructor
      · intro h
        refine ⟨hN, Int.dvd_of_emod_eq_zero ?_⟩
        rw [hmod, h, Int.emod_self]
      · rintro ⟨_, hd⟩
        have h0 : ((j : Int) + 1) % N = 0 := Int.emod_eq_zero_of_dvd hd
        by_contra hne
        have hlt : (j : Int) % N + 1 < N := by omega
        have := Int.emod_eq_of_lt (by omega : 0 ≤ (j : Int) % N + 1) hlt
        omega
    · intro h
      rw [hmod, h, Int.emod_self]
    · intro hne
      have hlt : (j : Int) % N + 1 < N := by omega
      rw [hmod, Int.emod_eq_of_lt (by omega) hlt]
  · simp only [if_neg hN] at hbc ⊢
    subst hbc
    refine ⟨wrapInt64_of_range _ (by omega) (by omega), ?_, ?_, ?_⟩
    · constructor
      · intro h; omega
      · rintro ⟨h, _⟩; exact absurd h hN
    · intro h; omega
    · intro _; rfl

/-- A call of `BulkService` whose incremented count differs from the threshold. -/
theorem BulkService_no_rotation (e : esBulkServiceFactory) (w : World)
    (h : wrapInt64 (e.batchCount + 1) ≠ e.reconnectBatches) :
    BulkService e w =
      .returned
        ({ e with batchCount := wrapInt64 (e.batchCount + 1) },
          { client := e.esClient, timeout := toString e.timeoutMs ++ "ms" }) w := by
  unfold BulkService
  dsimp only
  rw [if_neg h]
  rfl

/-- A call of `BulkService` whose incremented count equals the threshold. -/
theorem BulkService_rotation (e : esBulkServiceFactory) (w : World) (hurl : e.esURL ≠ [])
    (h : wrapInt64 (e.batchCount + 1) = e.reconnectBatches) :
    BulkService e w =
      if w.dialOk w.dials (chosenEndpoint e w) = true then
        .returned
          ({ e with
              batchCount := 0
              esClient := some (Client.mk (chosenEndpoint e w) e.esUsername e.esPassword w.dials) },
            { client := some (Client.mk (chosenEndpoint e w) e.esUsername e.esPassword w.dials)
              timeout := toString e.timeoutMs ++ "ms" })
          { w with reconnects := w.reconnects + 1, rands := w.rands + 1, dials := w.dials + 1 }
      else if w.ctxDone = true then
        .returned
          ({ e with batchCount := 0 },
            { client := e.esClient, timeout := toString e.timeoutMs ++ "ms" })
          { w with reconnects := w.reconnects + 1, rands := w.rands + 1, dials := w.dials + 1,
                   failures := w.failures + 1 }
      else
        .blocked
          { w with reconnects := w.reconnects + 1, rands := w.rands + 1, dials := w.dials + 1,
                   failures := w.failures + 1 } := by
  have hurl1 : ({ e with batchCount := wrapInt64 (e.batchCount + 1) } :
      esBulkServiceFactory).esURL ≠ [] := hurl
  have hce : chosenEndpoint { e with batchCount := wrapInt64 (e.batchCount + 1) } w =
      chosenEndpoint e w := rfl
  unfold BulkService
  dsimp only
  rw [if_pos h, reconnect_eq _ _ hurl1, hce]
  by_cases hd : w.dialOk w.dials (chosenEndpoint e w) = true
  · rw [if_pos hd, if_pos hd]
    rfl
  · by_cases hc : w.ctxDone = true
    · rw [if_neg hd, if_neg hd, if_pos hc, if_pos hc]
      rfl
    · rw [if_neg hd, if_neg hd, if_neg hc, if_neg hc]

/-- The number of `reconnect` invocations made by one call of `BulkService`, and the fields
the call leaves alone. -/
theorem BulkService_frame (e : esBulkServiceFactory) (w : World) (hurl : e.esURL ≠ []) :
    ((BulkService e w).world.reconnects =
        if wrapInt64 (e.batchCount + 1) = e.reconnectBatches then w.reconnects + 1
        else w.reconnects) ∧
    (BulkService e w).isPanicked = false ∧
    ∀ e1 h w1, BulkService e w = .returned (e1, h) w1 →
      e1.esURL = e.esURL ∧ e1.esUsername = e.esUsername ∧ e1.esPassword = e.esPassword ∧
      e1.reconnectBatches = e.reconnectBatches ∧ e1.timeoutMs = e.timeoutMs ∧
      e1.batchCount =
        (if wrapInt64 (e.batchCount + 1) = e.reconnectBatches then 0
         else wrapInt64 (e.batchCount + 1)) ∧
      h = handleOf e1 ∧ (h.client = e.esClient ∨ h.client = e1.esClient) := by
  by_cases hc : wrapInt64 (e.batchCount + 1) = e.reconnectBatches
  · rw [BulkService_rotation e w hurl hc]
    simp only [hc, if_true]
    by_cases hd : w.dialOk w.dials (chosenEndpoint e w) = true
    · rw [if_pos hd]
      refine ⟨rfl, rfl, ?_⟩
      intro e1 h w1 heq
      injection heq with h1 h2
      injection h1 with h3 h4
      subst h3 h4
      simp [handleOf]
    · by_cases hx : w.ctxDone = true
      · rw [if_neg hd, if_pos hx]
        refine ⟨rfl, rfl, ?_⟩
        intro e1 h w1 heq
        injection heq with h1 h2
        injection h1 with h3 h4
        subst h3 h4
        simp [handleOf]
      · rw [if_neg hd, if_neg hx]
        refine ⟨rfl, rfl, ?_⟩
        intro e1 h w1 heq
        cases heq
  · rw [BulkService_no_rotation e w hc]
    simp only [hc, if_false]
    refine ⟨rfl, rfl, ?_⟩
    intro e1 h w1 heq
    injection heq with h1 h2
    injection h1 with h3 h4
    subst h3 h4
    simp [handleOf]

/-- A run of `n + 1` calls that returns is a returning run of `n` calls followed by a
returning call. -/
theorem runCalls_succ_returned (n : Nat) (e0 : esBulkServiceFactory) (w0 : World)
    (e : esBulkServiceFactory) (w : World) (h : runCalls (n + 1) e0 w0 = .returned e w) :
    ∃ e1 w1 hd, runCalls n e0 w0 = .returned e1 w1 ∧
      BulkService e1 w1 = .returned (e, hd) w := by
  unfold runCalls at h
  cases hr : runCalls n e0 w0 with
  | returned e1 w1 =>
    rw [hr] at h
    dsimp only at h
    cases hb : BulkService e1 w1 with
    | returned a w2 =>
      obtain ⟨e2, hd⟩ := a
      rw [hb] at h
      dsimp only at h
      injection h with h1 h2
      subst h1 h2
      exact ⟨e1, w1, hd, rfl, hb⟩
    | blocked w2 => rw [hb] at h; cases h
    | panicked w2 => rw [hb] at h; cases h
  | blocked w1 => rw [hr] at h; cases h
  | panicked w1 => rw [hr] at h; cases h

/-- The counter after `j` returned calls on a factory that started with `batchCount = 0`. -/
theorem runCalls_count (e0 : esBulkServiceFactory) (w0 : World) (hurl : e0.esURL ≠ [])
    (h0 : e0.batchCount = 0) :
    ∀ (j : Nat) (e : esBulkServiceFactory) (w : World), (j : Int) < 2 ^ 63 →
      runCalls j e0 w0 = .returned e w →
      e.esURL = e0.esURL ∧ e.reconnectBatches = e0.reconnectBatches ∧
      e.batchCount =
        if 1 ≤ e0.reconnectBatches then (j : Int) % e0.reconnectBatches else (j : Int) := by
  intro j
  induction j with
  | zero =>
    intro e w _ h
    unfold runCalls at h
    injection h with h1 h2
    subst h1
    refine ⟨rfl, rfl, ?_⟩
    rw [h0]
    split <;> simp
  | succ j ih =>
    intro e w hj h
    obtain ⟨e1, w1, hd, hrun, hcall⟩ := runCalls_succ_returned j e0 w0 e w h
    have hj1 : (j : Int) + 1 < 2 ^ 63 := by
      have : ((j + 1 : Nat) : Int) = (j : Int) + 1 := by push_cast; rfl
      omega
    obtain ⟨hu, hN, hbc⟩ := ih e1 w1 (by omega) hrun
    have hurl1 : e1.esURL ≠ [] := by rw [hu]; exact hurl
    obtain ⟨_, _, hfr⟩ := BulkService_frame e1 w1 hurl1
    obtain ⟨f1, _, _, f4, _, f6, _, _⟩ := hfr e hd w hcall
    obtain ⟨a1, a2, a3, a4⟩ := count_arith e0.reconnectBatches j hj1 e1.batchCount hbc
    refine ⟨f1.trans hu, f4.trans hN, ?_⟩
    rw [f6, a1, hN]
    have hcast : ((j + 1 : Nat) : Int) = (j : Int) + 1 := by push_cast; rfl
    rw [hcast]
    by_cases hc : e1.batchCount + 1 = e0.reconnectBatches
    · rw [if_pos hc]
      exact a3 hc
    · rw [if_neg hc]
      exact a4 hc

/-- A factory returned by `newEsBulkServiceFactory`: its fields, and the world it leaves. -/
theorem newEsBulkServiceFactory_returned (url esUsername esPassword : String)
    (reconnectBatches timeoutMs : Int) (w0 : World) (e0 : esBulkServiceFactory) (w1 : World)
    (h : newEsBulkServiceFactory url esUsername esPassword reconnectBatches timeoutMs w0 =
      .returned e0 w1) :
    e0.esURL = strings_Split url ',' ∧ e0.esUsername = esUsername ∧
    e0.esPassword = esPassword ∧ e0.reconnectBatches = reconnectBatches ∧
    e0.timeoutMs = timeoutMs ∧ e0.batchCount = 0 ∧
    (e0.esClient = none ∨ ∃ c, e0.esClient = some c ∧ Installed w1 c) ∧
    w1.dialOk = w0.dialOk ∧ w1.ctxDone = w0.ctxDone := by
  unfold newEsBulkServiceFactory at h
  dsimp only at h
  rw [reconnect_eq _ _ (strings_Split_ne_nil url ',')] at h
  by_cases hd : w0.dialOk w0.dials (chosenEndpoint
      { esURL := strings_Split url ',', esUsername := esUsername, esPassword := esPassword,
        esClient := none, reconnectBatches := reconnectBatches, timeoutMs := timeoutMs,
        batchCount := 0 } w0) = true
  · rw [if_pos hd] at h
    injection h with h1 h2
    subst h1 h2
    refine ⟨rfl, rfl, rfl, rfl, rfl, rfl, Or.inr ⟨_, rfl, ?_, ?_⟩, rfl, rfl⟩
    · exact Nat.lt_succ_self _
    · exact hd
  · by_cases hc : w0.ctxDone = true
    · rw [if_neg hd, if_pos hc] at h
      injection h with h1 h2
      subst h1 h2
      exact ⟨rfl, rfl, rfl, rfl, rfl, rfl, Or.inl rfl, rfl, rfl⟩
    · rw [if_neg hd, if_neg hc] at h
      cases h

/-- A returning run followed by a returning call is a returning run. -/
theorem runCalls_succ_of (n : Nat) (e0 e1 e2 : esBulkServiceFactory) (w0 w1 w2 : World)
    (hd : bulkService) (h1 : runCalls n e0 w0 = .returned e1 w1)
    (h2 : BulkService e1 w1 = .returned (e2, hd) w2) :
    runCalls (n + 1) e0 w0 = .returned e2 w2 := by
  simp only [runCalls, h1, h2]

/-- Below the threshold no call of `BulkService` touches the world. -/
theorem runCalls_before_threshold (e0 : esBulkServiceFactory) (w : World)
    (hbc : e0.batchCount = 0) (hN : e0.reconnectBatches < 2 ^ 63) :
    ∀ k : Nat, (k : Int) < e0.reconnectBatches →
      runCalls k e0 w = .returned { e0 with batchCount := (k : Int) } w := by
  intro k
  induction k with
  | zero =>
    intro _
    have h0 : e0 = { e0 with batchCount := ((0 : Nat) : Int) } := by
      cases e0
      cases hbc
      rfl
    exact congrArg (fun x => Outcome.returned x w) h0
  | succ k ih =>
    intro hk
    have hcast : ((k + 1 : Nat) : Int) = (k : Int) + 1 := by push_cast; rfl
    have hk1 : (k : Int) < e0.reconnectBatches := by omega
    have hk0 : (0 : Int) ≤ (k : Int) := Int.ofNat_nonneg k
    have hw : wrapInt64 ((k : Int) + 1) = (k : Int) + 1 :=
      wrapInt64_of_range _ (by omega) (by omega)
    have hne : wrapInt64
        (({ e0 with batchCount := (k : Int) } : esBulkServiceFactory).batchCount + 1) ≠
        ({ e0 with batchCount := (k : Int) } : esBulkServiceFactory).reconnectBatches := by
      show wrapInt64 ((k : Int) + 1) ≠ e0.reconnectBatches
      rw [hw]
      omega
    have hcall : BulkService { e0 with batchCount := (k : Int) } w =
        .returned
          (({ e0 with batchCount := ((k + 1 : Nat) : Int) } : esBulkServiceFactory),
            { client := e0.esClient, timeout := toString e0.timeoutMs ++ "ms" }) w :=
      (BulkService_no_rotation _ w hne).trans
        (congrArg
          (fun x => Outcome.returned
            (({ e0 with batchCount := x } : esBulkServiceFactory),
              ({ client := e0.esClient, timeout := toString e0.timeoutMs ++ "ms" } :
                bulkService)) w)
          (hw.trans hcast.symm))
    exact runCalls_succ_of k e0 _ _ w w w _ (ih hk1) hcall


theorem reconnect_nil (e : esBulkServiceFactory) (w : World) (h : e.esURL = []) :
    reconnect e w = .panicked { w with reconnects := w.reconnects + 1 } := by
  unfold reconnect reconnectLoop reconnectIter rand_Intn
  simp [h]

/-! ## Properties of `reconnect` -/

/-- C4: when `reconnect` returns through the cancellation branch (`case <-ctx.Done()`), the
factory is exactly the one it was called on: `esClient` is the client from before the call and
`esURL`, the credentials, `reconnectBatches`, `timeoutMs` and `batchCount` are unchanged. -/
theorem reconnect_cancelled_frame (e : esBulkServiceFactory) (w : World)
    (e1 : esBulkServiceFactory) (w1 : World)
    (h : reconnect e w = .returned (e1, .cancelled) w1) :
    e1 = e ∧ e1.esClient = e.esClient ∧ e1.esURL = e.esURL ∧
    e1.esUsername = e.esUsername ∧ e1.esPassword = e.esPassword ∧
    e1.reconnectBatches = e.reconnectBatches ∧ e1.timeoutMs = e.timeoutMs ∧
    e1.batchCount = e.batchCount := by
  have key : e1 = e := by
    by_cases hurl : e.esURL = []
    · rw [reconnect_nil e w hurl] at h
      cases h
    · rw [reconnect_eq e w hurl] at h
      by_cases hd : w.dialOk w.dials (chosenEndpoint e w) = true
      · rw [if_pos hd] at h
        injection h with h1 h2
        injection h1 with h3 h4
        cases h4
      · by_cases hc : w.ctxDone = true
        · rw [if_neg hd, if_pos hc] at h
          injection h with h1 h2
          injection h1 with h3 h4
          exact h3.symm
        · rw [if_neg hd, if_neg hc] at h
          cases h
  subst key
  exact ⟨rfl, rfl, rfl, rfl, rfl, rfl, rfl, rfl⟩

theorem reconnect_cancelled_frame_witness :
    reconnect sampleFactory (sampleWorld true) =
        .returned (sampleFactory, .cancelled)
          { sampleWorld true with reconnects := 2, rands := 2, dials := 2, failures := 1 } ∧
      (sampleFactory = sampleFactory ∧ sampleFactory.esClient = sampleFactory.esClient ∧
        sampleFactory.esURL = sampleFactory.esURL ∧
        sampleFactory.esUsername = sampleFactory.esUsername ∧
        sampleFactory.esPassword = sampleFactory.esPassword ∧
        sampleFactory.reconnectBatches = sampleFactory.reconnectBatches ∧
        sampleFactory.timeoutMs = sampleFactory.timeoutMs ∧
        sampleFactory.batchCount = sampleFactory.batchCount) :=
  ⟨rfl, reconnect_cancelled_frame sampleFactory (sampleWorld true) sampleFactory
    { sampleWorld true with reconnects := 2, rands := 2, dials := 2, failures := 1 } rfl⟩

/-- C9: for every `url`, the endpoint list `strings.Split(url, ",")` of a factory has at least
one element (its pieces hold no comma and, joined by commas, give `url` back); so in
`reconnect` the argument of `rand.Intn` is positive, the index it returns is in bounds, and the
endpoint dialled is one of these pieces with the surrounding white space trimmed: the piece is
the endpoint between two runs of white space and the endpoint neither starts nor ends with
white space. Neither `reconnect` nor `newEsBulkServiceFactory` panics. -/
theorem esURL_choice_in_bounds (url esUsername esPassword : String) (esClient : Option Client)
    (reconnectBatches timeoutMs batchCount : Int) (w : World) :
    1 ≤ (strings_Split url ',').length ∧
    (∀ p ∈ strings_Split url ',', ',' ∉ p.data) ∧
    List.intercalate [','] ((strings_Split url ',').map String.data) = url.data ∧
    (∃ i u, rand_Intn (w.randSrc w.rands) (strings_Split url ',').length = some i ∧
      i < (strings_Split url ',').length ∧ (strings_Split url ',')[i]? = some u ∧
      u ∈ strings_Split url ',' ∧
      chosenEndpoint ⟨strings_Split url ',', esUsername, esPassword, esClient,
        reconnectBatches, timeoutMs, batchCount⟩ w = strings_TrimSpace u ∧
      TrimmedOf (chosenEndpoint ⟨strings_Split url ',', esUsername, esPassword, esClient,
        reconnectBatches, timeoutMs, batchCount⟩ w) u) ∧
    (reconnect ⟨strings_Split url ',', esUsername, esPassword, esClient,
        reconnectBatches, timeoutMs, batchCount⟩ w).isPanicked = false ∧
    (∀ e1 x w1, reconnect ⟨strings_Split url ',', esUsername, esPassword, esClient,
        reconnectBatches, timeoutMs, batchCount⟩ w = .returned (e1, x) w1 →
      e1.esURL = strings_Split url ',' ∧
      (x = .installed → ∃ c u, e1.esClient = some c ∧ u ∈ strings_Split url ',' ∧
        c.url = strings_TrimSpace u ∧ TrimmedOf c.url u)) ∧
    (newEsBulkServiceFactory url esUsername esPassword reconnectBatches timeoutMs w).isPanicked
      = false := by
  have hne : strings_Split url ',' ≠ [] := strings_Split_ne_nil url ','
  have hlen : (strings_Split url ',').length ≠ 0 := by
    intro h0
    exact hne (List.length_eq_zero.mp h0)
  have hpos : 0 < (strings_Split url ',').length := Nat.pos_of_ne_zero hlen
  have hlt : w.randSrc w.rands % (strings_Split url ',').length <
      (strings_Split url ',').length := Nat.mod_lt _ hpos
  have hget : (strings_Split url ',')[w.randSrc w.rands % (strings_Split url ',').length]? =
      some ((strings_Split url ',')[w.randSrc w.rands % (strings_Split url ',').length]) :=
    List.getElem?_eq_getElem hlt
  have hmem : (strings_Split url ',')[w.randSrc w.rands % (strings_Split url ',').length] ∈
      strings_Split url ',' := List.getElem_mem hlt
  have hch : ∀ (c : Option Client) (b : Int),
      chosenEndpoint ⟨strings_Split url ',', esUsername, esPassword, c,
        reconnectBatches, timeoutMs, b⟩ w =
      strings_TrimSpace
        ((strings_Split url ',')[w.randSrc w.rands % (strings_Split url ',').length]) := by
    intro c b
    unfold chosenEndpoint
    dsimp only
    rw [hget]
    rfl
  have htrim : ∀ (c : Option Client) (b : Int),
      TrimmedOf (chosenEndpoint ⟨strings_Split url ',', esUsername, esPassword, c,
        reconnectBatches, timeoutMs, b⟩ w)
        ((strings_Split url ',')[w.randSrc w.rands % (strings_Split url ',').length]) := by
    intro c b
    rw [hch c b]
    exact strings_TrimSpace_trimmed _
  have hrec : ∀ (c : Option Client) (b : Int),
      (reconnect ⟨strings_Split url ',', esUsername, esPassword, c,
        reconnectBatches, timeoutMs, b⟩ w).isPanicked = false := by
    intro c b
    rw [reconnect_eq _ _ hne]
    split
    · rfl
    · split <;> rfl
  refine ⟨hpos, ?_, ?_, ⟨_, _, ?_, hlt, hget, hmem, hch _ _, htrim _ _⟩, hrec _ _, ?_, ?_⟩
  · intro p hp
    have hp1 : p.data ∈ splitChars ',' url.data := by
      rw [← strings_Split_data]
      exact List.mem_map_of_mem String.data hp
    exact splitChars_no_sep ',' url.data p.data hp1
  · rw [strings_Split_data]
    exact splitChars_intercalate ',' url.data
  · unfold rand_Intn
    rw [if_neg hlen]
  · intro e1 x w1 h
    rw [reconnect_eq _ _ hne] at h
    split at h
    · injection h with h1 h2
      injection h1 with h3 h4
      subst h3
      exact ⟨rfl, fun _ => ⟨_, _, rfl, hmem, hch _ _, htrim _ _⟩⟩
    · split at h
      · injection h with h1 h2
        injection h1 with h3 h4
        subst h3 h4
        refine ⟨rfl, ?_⟩
        intro hx
        cases hx
      · cases h
  · have h := hrec none 0
    unfold newEsBulkServiceFactory
    dsimp only
    revert h
    cases reconnect ⟨strings_Split url ',', esUsername, esPassword, none,
        reconnectBatches, timeoutMs, 0⟩ w with
    | returned a w1 => intro _; rfl
    | blocked w1 => intro _; rfl
    | panicked w1 => intro h; exact h

theorem esURL_choice_in_bounds_witness :
    strings_Split " es1:9200 ,\tes2:9200 " ',' = [" es1:9200 ", "\tes2:9200 "] ∧
    chosenEndpoint ⟨strings_Split " es1:9200 ,\tes2:9200 " ',', "user", "secret", none, 1, 100, 0⟩
        (sampleWorld true) = "es2:9200" ∧
    reconnect ⟨strings_Split " es1:9200 ,\tes2:9200 " ',', "user", "secret", none, 1, 100, 0⟩
        (worldOutage 1 1 true) =
      .returned
        (⟨[" es1:9200 ", "\tes2:9200 "], "user", "secret",
          some ⟨"es1:9200", "user", "secret", 0⟩, 1, 100, 0⟩, .installed)
        (sampleWorld true) ∧
    1 ≤ (strings_Split " es1:9200 ,\tes2:9200 " ',').length ∧
    (∃ c u, some (Client.mk "es1:9200" "user" "secret" 0) = some c ∧
      u ∈ strings_Split " es1:9200 ,\tes2:9200 " ',' ∧
      c.url = strings_TrimSpace u ∧ TrimmedOf c.url u) :=
  ⟨by decide, by decide, rfl,
    (esURL_choice_in_bounds " es1:9200 ,\tes2:9200 " "user" "secret" none 1 100 0
      (worldOutage 1 1 true)).1,
    ((esURL_choice_in_bounds " es1:9200 ,\tes2:9200 " "user" "secret" none 1 100 0
      (worldOutage 1 1 true)).2.2.2.2.2.1
      ⟨[" es1:9200 ", "\tes2:9200 "], "user", "secret",
        some ⟨"es1:9200", "user", "secret", 0⟩, 1, 100, 0⟩
      .installed (sampleWorld true) rfl).2 rfl⟩

/-! ## Properties of `BulkService` -/

/-- C3, as stated, fails: here the incremented count equals the threshold and `reconnect`
runs, but its connection attempt fails and the context is cancelled, so `reconnect` installs
no client and the handle returned is built from the client installed before the call. -/
theorem BulkService_rotation_counterexample :
    newEsBulkServiceFactory "es1:9200, es2:9200" "user" "secret" 1 100 (worldOutage 1 1 true) =
      .returned sampleFactory (sampleWorld true) ∧
    wrapInt64 (sampleFactory.batchCount + 1) = sampleFactory.reconnectBatches ∧
    (reconnect { sampleFactory with batchCount := 1 } (sampleWorld true)).value? =
      some ({ sampleFactory with batchCount := 1 }, Exit.cancelled) ∧
    (BulkService sampleFactory (sampleWorld true)).value? =
      some ({ sampleFactory with batchCount := 0 },
        { client := some ⟨"es1:9200", "user", "secret", 0⟩, timeout := "100ms" }) ∧
    (sampleWorld true).dials = 1 := by
  refine ⟨rfl, by decide, by decide, by decide, rfl⟩

/-- C3, amended: on a factory with at least one endpoint, one sequential call of
`BulkService` adds one to `batchCount` in `int64` arithmetic. When the new count differs from
the threshold the call runs no `reconnect` (the world is untouched), leaves `esClient`
unchanged and returns a handle on the current client. When it equals the threshold the call
runs `reconnect` once; if the connection attempt succeeds it stores 0 in `batchCount` and
returns a handle on the client just installed; if the attempt fails and the context is
cancelled it stores 0 in `batchCount` and returns a handle on the unchanged prior client. -/
theorem BulkService_spec (e : esBulkServiceFactory) (w : World) (hurl : e.esURL ≠ []) :
    (-2 ^ 63 ≤ e.batchCount → e.batchCount < 2 ^ 63 - 1 →
      wrapInt64 (e.batchCount + 1) = e.batchCount + 1) ∧
    (wrapInt64 (e.batchCount + 1) ≠ e.reconnectBatches →
      BulkService e w =
        .returned
          ({ e with batchCount := wrapInt64 (e.batchCount + 1) },
            { client := e.esClient, timeout := toString e.timeoutMs ++ "ms" }) w) ∧
    (wrapInt64 (e.batchCount + 1) = e.reconnectBatches →
      w.dialOk w.dials (chosenEndpoint e w) = true →
      BulkService e w =
        .returned
          ({ e with
              batchCount := 0
              esClient := some (Client.mk (chosenEndpoint e w) e.esUsername e.esPassword w.dials) },
            { client := some (Client.mk (chosenEndpoint e w) e.esUsername e.esPassword w.dials)
              timeout := toString e.timeoutMs ++ "ms" })
          { w with reconnects := w.reconnects + 1, rands := w.rands + 1,
                   dials := w.dials + 1 }) ∧
    (wrapInt64 (e.batchCount + 1) = e.reconnectBatches →
      w.dialOk w.dials (chosenEndpoint e w) = false → w.ctxDone = true →
      BulkService e w =
        .returned
          ({ e with batchCount := 0 },
            { client := e.esClient, timeout := toString e.timeoutMs ++ "ms" })
          { w with reconnects := w.reconnects + 1, rands := w.rands + 1, dials := w.dials + 1,
                   failures := w.failures + 1 }) := by
  refine ⟨?_, ?_, ?_, ?_⟩
  · intro h1 h2
    exact wrapInt64_of_range _ (by omega) (by omega)
  · intro h
    exact BulkService_no_rotation e w h
  · intro h hd
    rw [BulkService_rotation e w hurl h, if_pos hd]
  · intro h hd hc
    have hd1 : ¬ w.dialOk w.dials (chosenEndpoint e w) = true := by
      rw [hd]
      exact Bool.false_ne_true
    rw [BulkService_rotation e w hurl h, if_neg hd1, if_pos hc]

theorem BulkService_spec_witness :
    sampleFactory.esURL ≠ [] ∧
    BulkService sampleFactory (sampleWorld true) =
      .returned
        ({ sampleFactory with batchCount := 0 },
          { client := sampleFactory.esClient, timeout := toString (100 : Int) ++ "ms" })
        { sampleWorld true with reconnects := 2, rands := 2, dials := 2, failures := 1 } :=
  ⟨by decide,
    (BulkService_spec sampleFactory (sampleWorld true) (by decide)).2.2.2
      (by decide) (by decide) rfl⟩

/-- C1, as stated, fails: with threshold 2 the second call already reconnects (the counter of
`reconnect` invocations, 1 after the initial connection, is 2 after two calls) and the third
call does not. -/
theorem rotation_call_counterexample :
    (freshRun "es1:9200, es2:9200" "user" "secret" 2 100 (worldOutage 0 0 false)
      0).world.reconnects = 1 ∧
    (freshRun "es1:9200, es2:9200" "user" "secret" 2 100 (worldOutage 0 0 false)
      1).world.reconnects = 1 ∧
    (freshRun "es1:9200, es2:9200" "user" "secret" 2 100 (worldOutage 0 0 false)
      2).world.reconnects = 2 ∧
    (freshRun "es1:9200, es2:9200" "user" "secret" 2 100 (worldOutage 0 0 false)
      3).world.reconnects = 2 ∧
    (freshRun "es1:9200, es2:9200" "user" "secret" 2 100 (worldOutage 0 0 false)
      3).value?.isSome = true := by
  decide

/-- C1, amended: for every threshold `n ≥ 1` and a factory freshly built by
`newEsBulkServiceFactory`, the first `n - 1` calls of `BulkService` return without touching
the world (no reconnect, no connection attempt) and the `n`-th call invokes `reconnect`
exactly once, making one connection attempt. -/
theorem rotation_at_threshold (url esUsername esPassword : String) (n : Nat) (timeoutMs : Int)
    (w0 : World) (e0 : esBulkServiceFactory) (w1 : World) (hn : 1 ≤ n)
    (hn2 : (n : Int) < 2 ^ 63)
    (hnew : newEsBulkServiceFactory url esUsername esPassword (n : Int) timeoutMs w0 =
      .returned e0 w1) :
    (∀ k : Nat, k < n →
      runCalls k e0 w1 = .returned { e0 with batchCount := (k : Int) } w1) ∧
    (BulkService { e0 with batchCount := ((n - 1 : Nat) : Int) } w1).world.reconnects =
      w1.reconnects + 1 ∧
    (BulkService { e0 with batchCount := ((n - 1 : Nat) : Int) } w1).world.dials =
      w1.dials + 1 := by
  obtain ⟨hu, _, _, hN, _, hbc, _, _, _⟩ :=
    newEsBulkServiceFactory_returned url esUsername esPassword (n : Int) timeoutMs w0 e0 w1 hnew
  have hurl : e0.esURL ≠ [] := by
    rw [hu]
    exact strings_Split_ne_nil url ','
  have hcast : ((n - 1 : Nat) : Int) = (n : Int) - 1 := by omega
  have hw : wrapInt64 ((n : Int) - 1 + 1) = (n : Int) :=
    by rw [wrapInt64_of_range _ (by omega) (by omega)]; omega
  have hrot : wrapInt64
      (({ e0 with batchCount := ((n - 1 : Nat) : Int) } : esBulkServiceFactory).batchCount + 1) =
      ({ e0 with batchCount := ((n - 1 : Nat) : Int) } : esBulkServiceFactory).reconnectBatches := by
    show wrapInt64 (((n - 1 : Nat) : Int) + 1) = e0.reconnectBatches
    rw [hcast, hw, hN]
  have hurl1 : ({ e0 with batchCount := ((n - 1 : Nat) : Int) } :
      esBulkServiceFactory).esURL ≠ [] := hurl
  refine ⟨?_, ?_, ?_⟩
  · intro k hk
    exact runCalls_before_threshold e0 w1 hbc (by rw [hN]; exact hn2) k (by rw [hN]; omega)
  · rw [BulkService_rotation _ w1 hurl1 hrot]
    split
    · rfl
    · split <;> rfl
  · rw [BulkService_rotation _ w1 hurl1 hrot]
    split
    · rfl
    · split <;> rfl

theorem rotation_at_threshold_witness :
    (1 ≤ 3 ∧ ((3 : Nat) : Int) < 2 ^ 63 ∧
      newEsBulkServiceFactory "es1:9200, es2:9200" "user" "secret" ((3 : Nat) : Int) 100
        (worldOutage 1 1 false) =
        .returned { sampleFactory with reconnectBatches := 3 } (sampleWorld false)) ∧
    runCalls 2 { sampleFactory with reconnectBatches := 3 } (sampleWorld false) =
      .returned { sampleFactory with reconnectBatches := 3, batchCount := ((2 : Nat) : Int) }
        (sampleWorld false) ∧
    (BulkService { sampleFactory with reconnectBatches := 3, batchCount := ((3 - 1 : Nat) : Int) }
      (sampleWorld false)).world.reconnects = (sampleWorld false).reconnects + 1 :=
  ⟨⟨by decide, by decide, rfl⟩,
    (rotation_at_threshold "es1:9200, es2:9200" "user" "secret" 3 100 (worldOutage 1 1 false)
      { sampleFactory with reconnectBatches := 3 } (sampleWorld false) (by decide) (by decide)
      rfl).1 2 (by decide),
    (rotation_at_threshold "es1:9200, es2:9200" "user" "secret" 3 100 (worldOutage 1 1 false)
      { sampleFactory with reconnectBatches := 3 } (sampleWorld false) (by decide) (by decide)
      rfl).2.1⟩

/-- C2, evaluated on the code: build a factory with threshold 1 in a world where the initial
connection succeeds, the next `K + 1` connection attempts fail, every later one succeeds and the
context is never cancelled. The first call of `BulkService` triggers `reconnect`, whose first
attempt fails; the call then waits forever on `ctx.Done()`: it never returns, one failure is
counted whatever `K` is, and the attempt that would succeed (number `K + 2`) is never made. -/
theorem reconnect_never_retries (K : Nat) :
    (freshRun "es1:9200, es2:9200" "user" "secret" 1 100
      (worldOutage 1 (K + 1) false) 1).isBlocked = true ∧
    (freshRun "es1:9200, es2:9200" "user" "secret" 1 100
      (worldOutage 1 (K + 1) false) 1).world.failures = 1 ∧
    (freshRun "es1:9200, es2:9200" "user" "secret" 1 100
      (worldOutage 1 (K + 1) false) 1).world.dials = 2 ∧
    (worldOutage 1 (K + 1) false).dialOk (K + 2) "es1:9200" = true := by
  have hnew : newEsBulkServiceFactory "es1:9200, es2:9200" "user" "secret" 1 100
      (worldOutage 1 (K + 1) false) =
      .returned sampleFactory
        { worldOutage 1 (K + 1) false with dials := 1, rands := 1, reconnects := 1 } := rfl
  have hfail : (worldOutage 1 (K + 1) false).dialOk 1
      (chosenEndpoint sampleFactory
        { worldOutage 1 (K + 1) false with dials := 1, rands := 1, reconnects := 1 }) ≠ true := by
    simp [worldOutage]
  have hcall : BulkService sampleFactory
      { worldOutage 1 (K + 1) false with dials := 1, rands := 1, reconnects := 1 } =
      .blocked
        { worldOutage 1 (K + 1) false with
            dials := 2, rands := 2, reconnects := 2, failures := 1 } := by
    have hc : ¬ ({ worldOutage 1 (K + 1) false with dials := 1, rands := 1, reconnects := 1 } :
        World).ctxDone = true := Bool.false_ne_true
    rw [BulkService_rotation sampleFactory _ (by decide) (by decide), if_neg hfail, if_neg hc]
    rfl
  have hrun : freshRun "es1:9200, es2:9200" "user" "secret" 1 100
      (worldOutage 1 (K + 1) false) 1 =
      .blocked
        { worldOutage 1 (K + 1) false with
            dials := 2, rands := 2, reconnects := 2, failures := 1 } := by
    simp only [freshRun, hnew, runCalls, hcall]
  rw [hrun]
  refine ⟨rfl, rfl, rfl, ?_⟩
  simp [worldOutage]
  omega

/-- A returning fresh run is a returning construction followed by a returning run. -/
theorem freshRun_returned (url esUsername esPassword : String) (reconnectBatches timeoutMs : Int)
    (w0 : World) (n : Nat) (e : esBulkServiceFactory) (w : World)
    (h : freshRun url esUsername esPassword reconnectBatches timeoutMs w0 n = .returned e w) :
    ∃ e0 w1,
      newEsBulkServiceFactory url esUsername esPassword reconnectBatches timeoutMs w0 =
        .returned e0 w1 ∧
      runCalls n e0 w1 = .returned e w := by
  unfold freshRun at h
  split at h
  · rename_i e0 w1 heq
    exact ⟨e0, w1, heq, h⟩
  · cases h
  · cases h

/-- C8: in a sequential run on a freshly built factory, the `i`-th call of `BulkService`
(`1 ≤ i < 2^63`, the first `i - 1` calls having returned) invokes `reconnect` if and only if
the threshold `N` is at least 1 and divides `i`, and it invokes it at most once. The call
never panics, and it returns when the context is cancelled or the connection attempt
succeeds. When it returns, `batchCount` is `i % N`, within `0..N-1`, for `N ≥ 1`; for `N ≤ 0`
the call makes no reconnect, always returns, and leaves `batchCount = i`. -/
theorem rotation_iff_threshold_divides (url esUsername esPassword : String)
    (N timeoutMs : Int) (w0 : World) (i : Nat) (hi1 : 1 ≤ i) (hi2 : (i : Int) < 2 ^ 63)
    (e : esBulkServiceFactory) (w : World)
    (hrun : freshRun url esUsername esPassword N timeoutMs w0 (i - 1) = .returned e w) :
    ((BulkService e w).world.reconnects = w.reconnects + 1 ↔ (1 ≤ N ∧ N ∣ (i : Int))) ∧
    ((BulkService e w).world.reconnects = w.reconnects ∨
      (BulkService e w).world.reconnects = w.reconnects + 1) ∧
    (BulkService e w).isPanicked = false ∧
    (w.ctxDone = true ∨ w.dialOk w.dials (chosenEndpoint e w) = true →
      ∃ e1 h w1, BulkService e w = .returned (e1, h) w1) ∧
    (N ≤ 0 → (BulkService e w).world.reconnects = w.reconnects ∧
      ∃ e1 h, BulkService e w = .returned (e1, h) w ∧ e1.batchCount = (i : Int)) ∧
    (∀ e1 h w1, BulkService e w = .returned (e1, h) w1 →
      (1 ≤ N → 0 ≤ e1.batchCount ∧ e1.batchCount ≤ N - 1 ∧ e1.batchCount = (i : Int) % N) ∧
      (N ≤ 0 → e1.batchCount = (i : Int))) := by
  obtain ⟨e0, w1, hnew, hrun1⟩ :=
    freshRun_returned url esUsername esPassword N timeoutMs w0 (i - 1) e w hrun
  obtain ⟨hu, _, _, hN0, _, hbc0, _, _, _⟩ :=
    newEsBulkServiceFactory_returned url esUsername esPassword N timeoutMs w0 e0 w1 hnew
  have hurl0 : e0.esURL ≠ [] := by
    rw [hu]
    exact strings_Split_ne_nil url ','
  have hcast : ((i - 1 : Nat) : Int) + 1 = (i : Int) := by omega
  obtain ⟨hue, hNe, hbce⟩ := runCalls_count e0 w1 hurl0 hbc0 (i - 1) e w (by omega) hrun1
  rw [hN0] at hNe hbce
  have hurl : e.esURL ≠ [] := by
    rw [hue]
    exact hurl0
  obtain ⟨a1, a2, a3, a4⟩ := count_arith N (i - 1) (by omega) e.batchCount hbce
  rw [hcast] at a2 a3 a4
  obtain ⟨f1, f2, f3⟩ := BulkService_frame e w hurl
  rw [a1, hNe] at f1
  have hbound : ∀ e1 h w1, BulkService e w = .returned (e1, h) w1 →
      e1.batchCount = if 1 ≤ N then (i : Int) % N else (i : Int) := by
    intro e1 h w2 hcall
    obtain ⟨_, _, _, _, _, g6, _, _⟩ := f3 e1 h w2 hcall
    rw [a1, hNe] at g6
    rw [g6]
    by_cases hc : e.batchCount + 1 = N
    · rw [if_pos hc]
      exact a3 hc
    · rw [if_neg hc]
      exact a4 hc
  refine ⟨?_, ?_, f2, ?_, ?_, ?_⟩
  · rw [f1]
    by_cases hc : e.batchCount + 1 = N
    · rw [if_pos hc]
      exact ⟨fun _ => a2.mp hc, fun _ => rfl⟩
    · rw [if_neg hc]
      constructor
      · intro h
        omega
      · intro h
        exact absurd (a2.mpr h) hc
  · rw [f1]
    by_cases hc : e.batchCount + 1 = N
    · rw [if_pos hc]
      exact Or.inr rfl
    · rw [if_neg hc]
      exact Or.inl rfl
  · intro hret
    by_cases hc : wrapInt64 (e.batchCount + 1) = e.reconnectBatches
    · rw [BulkService_rotation e w hurl hc]
      by_cases hd : w.dialOk w.dials (chosenEndpoint e w) = true
      · rw [if_pos hd]
        exact ⟨_, _, _, rfl⟩
      · rw [if_neg hd]
        have hx : w.ctxDone = true := by
          cases hret with
          | inl h => exact h
          | inr h => exact absurd h hd
        rw [if_pos hx]
        exact ⟨_, _, _, rfl⟩
    · rw [BulkService_no_rotation e w hc]
      exact ⟨_, _, _, rfl⟩
  · intro hN
    have hc : e.batchCount + 1 ≠ N := by
      intro h
      have := (a2.mp h).1
      omega
    have hc1 : wrapInt64 (e.batchCount + 1) ≠ e.reconnectBatches := by
      rw [a1, hNe]
      exact hc
    refine ⟨?_, ?_⟩
    · rw [f1, if_neg hc]
    · refine ⟨_, _, BulkService_no_rotation e w hc1, ?_⟩
      show wrapInt64 (e.batchCount + 1) = (i : Int)
      rw [a1]
      have := a4 hc
      rw [if_neg (by omega)] at this
      exact this
  · intro e1 h w2 hcall
    have hb := hbound e1 h w2 hcall
    constructor
    · intro hN
      rw [if_pos hN] at hb
      rw [hb]
      have h1 : 0 ≤ (i : Int) % N := Int.emod_nonneg _ (by omega)
      have h2 : (i : Int) % N < N := Int.emod_lt_of_pos _ (by omega)
      exact ⟨h1, by omega, rfl⟩
    · intro hN
      rw [if_neg (by omega)] at hb
      exact hb

theorem rotation_iff_threshold_divides_witness :
    (1 ≤ 2 ∧ ((2 : Nat) : Int) < 2 ^ 63 ∧
      freshRun "es1:9200, es2:9200" "user" "secret" 2 100 (worldOutage 1 1 true) (2 - 1) =
        .returned { sampleFactory with reconnectBatches := 2, batchCount := 1 }
          (sampleWorld true)) ∧
    ((BulkService { sampleFactory with reconnectBatches := 2, batchCount := 1 }
        (sampleWorld true)).world.reconnects = (sampleWorld true).reconnects + 1 ↔
      (1 ≤ (2 : Int) ∧ (2 : Int) ∣ ((2 : Nat) : Int))) :=
  ⟨⟨by decide, by decide, rfl⟩,
    (rotation_iff_threshold_divides "es1:9200, es2:9200" "user" "secret" 2 100
      (worldOutage 1 1 true) 2 (by decide) (by decide)
      { sampleFactory with reconnectBatches := 2, batchCount := 1 } (sampleWorld true) rfl).1⟩

/-- A client installed earlier stays installed as the world advances. -/
theorem Installed_mono (w w1 : World) (c : Client) (h : Installed w c)
    (hd : w1.dialOk = w.dialOk) (hle : w.dials ≤ w1.dials) : Installed w1 c := by
  unfold Installed at h ⊢
  rw [hd]
  exact ⟨Nat.lt_of_lt_of_le h.1 hle, h.2⟩

/-- One returning call of `BulkService` keeps a successfully installed client in place or
replaces it by another successfully installed one, and hands out the resulting client. -/
theorem BulkService_installed (e : esBulkServiceFactory) (w : World) (hurl : e.esURL ≠ [])
    (hc : ∃ c, e.esClient = some c ∧ Installed w c)
    (e1 : esBulkServiceFactory) (h : bulkService) (w1 : World)
    (hcall : BulkService e w = .returned (e1, h) w1) :
    (∃ c, e1.esClient = some c ∧ Installed w1 c) ∧ h.client = e1.esClient ∧
    e1.esURL = e.esURL := by
  obtain ⟨c, hc1, hc2⟩ := hc
  by_cases hr : wrapInt64 (e.batchCount + 1) = e.reconnectBatches
  · rw [BulkService_rotation e w hurl hr] at hcall
    by_cases hd : w.dialOk w.dials (chosenEndpoint e w) = true
    · rw [if_pos hd] at hcall
      injection hcall with h1 h2
      injection h1 with h3 h4
      subst h2 h3 h4
      exact ⟨⟨_, rfl, Nat.lt_succ_self _, hd⟩, rfl, rfl⟩
    · by_cases hx : w.ctxDone = true
      · rw [if_neg hd, if_pos hx] at hcall
        injection hcall with h1 h2
        injection h1 with h3 h4
        subst h2 h3 h4
        exact ⟨⟨c, hc1, Installed_mono w _ c hc2 rfl (Nat.le_succ _)⟩, rfl, rfl⟩
      · rw [if_neg hd, if_neg hx] at hcall
        cases hcall
  · rw [BulkService_no_rotation e w hr] at hcall
    injection hcall with h1 h2
    injection h1 with h3 h4
    subst h2 h3 h4
    exact ⟨⟨c, hc1, hc2⟩, rfl, rfl⟩

/-- A returning run of calls keeps a successfully installed client in the factory. -/
theorem runCalls_installed (e0 : esBulkServiceFactory) (w0 : World) (hurl : e0.esURL ≠ [])
    (hc : ∃ c, e0.esClient = some c ∧ Installed w0 c) :
    ∀ (n : Nat) (e : esBulkServiceFactory) (w : World), runCalls n e0 w0 = .returned e w →
      (∃ c, e.esClient = some c ∧ Installed w c) ∧ e.esURL = e0.esURL := by
  intro n
  induction n with
  | zero =>
    intro e w h
    unfold runCalls at h
    injection h with h1 h2
    subst h1 h2
    exact ⟨hc, rfl⟩
  | succ n ih =>
    intro e w h
    obtain ⟨e1, w1, hd, hrun, hcall⟩ := runCalls_succ_returned n e0 w0 e w h
    obtain ⟨hc1, hu1⟩ := ih e1 w1 hrun
    have hurl1 : e1.esURL ≠ [] := by
      rw [hu1]
      exact hurl
    obtain ⟨g1, _, g3⟩ := BulkService_installed e1 w1 hurl1 hc1 e hd w hcall
    exact ⟨g1, g3.trans hu1⟩

/-- C5, as stated, fails: when the initial connection attempt fails and the context is
cancelled, `newEsBulkServiceFactory` returns a factory whose client is nil; the next call of
`BulkService` (threshold 1, so it spans a rotation, whose attempt fails too) returns a handle
built from that nil client. -/
theorem nil_client_counterexample :
    (newEsBulkServiceFactory "es1:9200, es2:9200" "user" "secret" 1 100
      (worldOutage 0 2 true)).value?.map (fun e => e.esClient) = some none ∧
    (freshRun "es1:9200, es2:9200" "user" "secret" 1 100
      (worldOutage 0 2 true) 1).world.reconnects = 2 ∧
    (match newEsBulkServiceFactory "es1:9200, es2:9200" "user" "secret" 1 100
        (worldOutage 0 2 true) with
      | .returned e w => (BulkService e w).value?.map (fun r => r.2.client)
      | _ => none) = some none := by
  decide

/-- C5, amended: in a sequential run on a factory that `newEsBulkServiceFactory` returned with
a client in place (its initial connection attempt succeeded), every call of `BulkService` that
returns, whether or not it spans a rotation and whether the rotation succeeded or was
cancelled, returns a handle built from the client the factory held before the call or from
the one it holds after it; that client is not nil and was installed by a successful
connection attempt. -/
theorem handle_client_installed (url esUsername esPassword : String)
    (reconnectBatches timeoutMs : Int) (w0 : World) (e0 : esBulkServiceFactory) (w1 : World)
    (hnew : newEsBulkServiceFactory url esUsername esPassword reconnectBatches timeoutMs w0 =
      .returned e0 w1)
    (hinit : e0.esClient ≠ none)
    (n : Nat) (e : esBulkServiceFactory) (w : World)
    (hrun : runCalls n e0 w1 = .returned e w)
    (e1 : esBulkServiceFactory) (h : bulkService) (w2 : World)
    (hcall : BulkService e w = .returned (e1, h) w2) :
    (h.client = e.esClient ∨ h.client = e1.esClient) ∧
    (∃ c, h.client = some c ∧ Installed w2 c) ∧
    (∃ c, e.esClient = some c ∧ Installed w c) := by
  obtain ⟨hu, _, _, _, _, _, hcl, _, _⟩ :=
    newEsBulkServiceFactory_returned url esUsername esPassword reconnectBatches timeoutMs
      w0 e0 w1 hnew
  have hurl0 : e0.esURL ≠ [] := by
    rw [hu]
    exact strings_Split_ne_nil url ','
  have hc0 : ∃ c, e0.esClient = some c ∧ Installed w1 c := by
    cases hcl with
    | inl h0 => exact absurd h0 hinit
    | inr h0 => exact h0
  obtain ⟨hce, hue⟩ := runCalls_installed e0 w1 hurl0 hc0 n e w hrun
  have hurl : e.esURL ≠ [] := by
    rw [hue]
    exact hurl0
  obtain ⟨g1, g2, _⟩ := BulkService_installed e w hurl hce e1 h w2 hcall
  refine ⟨Or.inr g2, ?_, hce⟩
  rw [g2]
  exact g1

theorem handle_client_installed_witness :
    (newEsBulkServiceFactory "es1:9200, es2:9200" "user" "secret" 1 100 (worldOutage 1 1 true) =
        .returned sampleFactory (sampleWorld true) ∧
      sampleFactory.esClient ≠ none ∧
      runCalls 0 sampleFactory (sampleWorld true) = .returned sampleFactory (sampleWorld true) ∧
      BulkService sampleFactory (sampleWorld true) =
        .returned
          (sampleFactory, { client := sampleFactory.esClient, timeout := "100ms" })
          { sampleWorld true with reconnects := 2, rands := 2, dials := 2, failures := 1 }) ∧
    ((({ client := sampleFactory.esClient, timeout := "100ms" } : bulkService).client =
        sampleFactory.esClient ∨
      ({ client := sampleFactory.esClient, timeout := "100ms" } : bulkService).client =
        sampleFactory.esClient) ∧
    (∃ c, ({ client := sampleFactory.esClient, timeout := "100ms" } : bulkService).client =
        some c ∧
      Installed
        { sampleWorld true with reconnects := 2, rands := 2, dials := 2, failures := 1 } c) ∧
    (∃ c, sampleFactory.esClient = some c ∧ Installed (sampleWorld true) c)) :=
  ⟨⟨rfl, by decide, rfl, rfl⟩,
    handle_client_installed "es1:9200, es2:9200" "user" "secret" 1 100 (worldOutage 1 1 true)
      sampleFactory (sampleWorld true) rfl (by decide) 0 sampleFactory (sampleWorld true) rfl
      sampleFactory { client := sampleFactory.esClient, timeout := "100ms" }
      { sampleWorld true with reconnects := 2, rands := 2, dials := 2, failures := 1 } rfl⟩

/-! ## Properties of the built-in registrations -/

/-- Both built-in functions are sequences of registration calls, the ones recorded. -/
theorem RegisterBuiltin_eq_foldl {R : Type} (ops : RegistryOps R) (r : R) :
    RegisterBuiltinNodeTypes ops (RegisterBuiltinSourceTypes ops r) =
      builtinCalls.reverse.foldl (RegCall.apply ops) r ∧
    RegisterBuiltinSourceTypes ops (RegisterBuiltinNodeTypes ops r) =
      builtinCallsSwapped.reverse.foldl (RegCall.apply ops) r :=
  ⟨rfl, rfl⟩

/-- Registrations under other names do not change what is found under `n`. -/
theorem foldl_lookup_other {R : Type} (ops : RegistryOps R) (lookup : R → String → Option RegCall)
    (hother : ∀ (r : R) (c : RegCall) (n : String),
      n ≠ c.name → lookup (c.apply ops r) n = lookup r n) (n : String) :
    ∀ (cs : List RegCall) (r : R), n ∉ cs.map RegCall.name →
      lookup (cs.foldl (RegCall.apply ops) r) n = lookup r n := by
  intro cs
  induction cs with
  | nil => intro r _; rfl
  | cons c cs ih =>
    intro r hn
    rw [List.map_cons, List.mem_cons, not_or] at hn
    rw [List.foldl_cons, ih _ hn.2, hother r c n hn.1]

/-- Calls under pairwise distinct fresh names are each found again afterwards. -/
theorem foldl_lookup_self {R : Type} (ops : RegistryOps R) (lookup : R → String → Option RegCall)
    (hfresh : ∀ (r : R) (c : RegCall),
      lookup r c.name = none → lookup (c.apply ops r) c.name = some c)
    (hother : ∀ (r : R) (c : RegCall) (n : String),
      n ≠ c.name → lookup (c.apply ops r) n = lookup r n) :
    ∀ (cs : List RegCall) (r : R), (cs.map RegCall.name).Nodup →
      (∀ c ∈ cs, lookup r c.name = none) →
      ∀ c ∈ cs, lookup (cs.foldl (RegCall.apply ops) r) c.name = some c := by
  intro cs
  induction cs with
  | nil =>
    intro r _ _ c hc
    cases hc
  | cons c0 cs ih =>
    intro r hnd hnone c hc
    rw [List.map_cons, List.nodup_cons] at hnd
    rw [List.foldl_cons]
    rcases List.mem_cons.mp hc with h | h
    · subst h
      rw [foldl_lookup_other ops lookup hother c.name cs _ hnd.1]
      exact hfresh r c (hnone c (List.mem_cons_self _ _))
    · refine ih (c0.apply ops r) hnd.2 ?_ c h
      intro c1 hc1
      have hne : c1.name ≠ c0.name := by
        intro heq
        exact hnd.1 (heq ▸ List.mem_map_of_mem RegCall.name hc1)
      rw [hother r c0 c1.name hne]
      exact hnone c1 (List.mem_cons_of_mem _ hc1)

/-- C7: the names registered by `RegisterBuiltinSourceTypes` and `RegisterBuiltinNodeTypes`
(kafkaconsumer; syslogparser, kafkaproducer, errorkafkaproducer, elasticsearch) are pairwise
distinct: run once each, in either order, the two functions make the same five calls under
five different names. Hence on any registry that finds a call again after registering it
under a fresh name and whose registrations leave the other names alone, every name is found
afterwards with the factory and type signature it was given, in both orders. -/
theorem builtin_names_distinct :
    builtinCalls.map RegCall.name =
      ["elasticsearch", "errorkafkaproducer", "kafkaproducer", "syslogparser",
        "kafkaconsumer"] ∧
    (builtinCalls.map RegCall.name).Nodup ∧
    (builtinCallsSwapped.map RegCall.name).Nodup ∧
    builtinCallsSwapped.Perm builtinCalls ∧
    (∀ (R : Type) (ops : RegistryOps R) (lookup : R → String → Option RegCall) (r0 : R),
      (∀ (r : R) (c : RegCall),
        lookup r c.name = none → lookup (c.apply ops r) c.name = some c) →
      (∀ (r : R) (c : RegCall) (n : String),
        n ≠ c.name → lookup (c.apply ops r) n = lookup r n) →
      (∀ c ∈ builtinCalls, lookup r0 c.name = none) →
      ∀ c ∈ builtinCalls,
        lookup (RegisterBuiltinNodeTypes ops (RegisterBuiltinSourceTypes ops r0)) c.name =
          some c ∧
        lookup (RegisterBuiltinSourceTypes ops (RegisterBuiltinNodeTypes ops r0)) c.name =
          some c) := by
  refine ⟨by decide, by decide, by decide, by decide, ?_⟩
  intro R ops lookup r0 hfresh hother hnone c hc
  have hperm : builtinCallsSwapped.reverse.Perm builtinCalls := by decide
  rw [(RegisterBuiltin_eq_foldl ops r0).1, (RegisterBuiltin_eq_foldl ops r0).2]
  constructor
  · refine foldl_lookup_self ops lookup hfresh hother builtinCalls.reverse r0 (by decide) ?_ c
      (List.mem_reverse.mpr hc)
    intro c1 hc1
    exact hnone c1 (List.mem_reverse.mp hc1)
  · refine foldl_lookup_self ops lookup hfresh hother builtinCallsSwapped.reverse r0
      (by decide) ?_ c (hperm.symm.subset hc)
    intro c1 hc1
    exact hnone c1 (hperm.subset hc1)

theorem builtin_names_distinct_witness :
    traceLookup (RegisterBuiltinNodeTypes traceOps (RegisterBuiltinSourceTypes traceOps []))
        "kafkaconsumer" =
      some (.source "kafkaconsumer" ⟨.ptr (.named "kafkaconsumer" "KafkaConsumer")⟩
        (some (.slice .uint8))) ∧
    traceLookup (RegisterBuiltinSourceTypes traceOps (RegisterBuiltinNodeTypes traceOps []))
        "kafkaconsumer" =
      some (.source "kafkaconsumer" ⟨.ptr (.named "kafkaconsumer" "KafkaConsumer")⟩
        (some (.slice .uint8))) :=
  builtin_names_distinct.2.2.2.2 (List RegCall) traceOps traceLookup []
    (by
      intro r c _
      cases c <;> simp [traceLookup, RegCall.apply, traceOps, RegCall.name])
    (by
      intro r c n hn
      have hn1 : ¬ c.name = n := fun h => hn h.symm
      cases c <;> simp_all [traceLookup, RegCall.apply, traceOps, RegCall.name])
    (by
      intro c _
      rfl)
    (.source "kafkaconsumer" ⟨.ptr (.named "kafkaconsumer" "KafkaConsumer")⟩
      (some (.slice .uint8)))
    (by decide)

/-- C10: in the built-in registrations `kafkaconsumer` is registered through
`RegisterSourceType`, hence with no input type, and with output type `[]byte`; it is the only
source. `kafkaproducer` and `errorkafkaproducer` are registered with a nil output type, and
they are the only names registered without an output type. The output type declared by
`kafkaconsumer` equals the input type declared by `syslogparser`, so the edge
`kafkaconsumer -> syslogparser` connects equal types. -/
theorem builtin_type_signatures :
    traceLookup builtinCalls "kafkaconsumer" =
      some (.source "kafkaconsumer" ⟨.ptr (.named "kafkaconsumer" "KafkaConsumer")⟩
        (some (.slice .uint8))) ∧
    (traceLookup builtinCalls "kafkaproducer").map
        (fun c => (c.isSource, c.inputType, c.outputType)) =
      some (false, some (.named "firebolt" "ProduceRequest"), none) ∧
    (traceLookup builtinCalls "errorkafkaproducer").map
        (fun c => (c.isSource, c.inputType, c.outputType)) =
      some (false, some (.ptr (.named "firebolt" "EventError")), none) ∧
    (builtinCalls.filter (fun c => c.outputType.isNone)).map RegCall.name =
      ["errorkafkaproducer", "kafkaproducer"] ∧
    (builtinCalls.filter (fun c => c.inputType.isNone)).map RegCall.name =
      ["kafkaconsumer"] ∧
    (builtinCalls.filter RegCall.isSource).map RegCall.name = ["kafkaconsumer"] ∧
    (traceLookup builtinCalls "kafkaconsumer").map RegCall.outputType =
      some (some (.slice .uint8)) ∧
    (traceLookup builtinCalls "syslogparser").map RegCall.inputType =
      some (some (.slice .uint8)) ∧
    (traceLookup builtinCalls "kafkaconsumer").map RegCall.outputType =
      (traceLookup builtinCalls "syslogparser").map RegCall.inputType := by
  refine ⟨by decide, by decide, by decide, by decide, by decide, by decide, by decide,
    by decide, by decide⟩

/-! ## Properties of the start-up emission -/

theorem startupEmission_length (ceiling : Nat) (ps : List Partition) :
    ∀ i : Nat, (startupEmission ceiling i ps).length =
      (ps.map (fun p => min ceiling p.availableBacklog)).sum := by
  induction ps with
  | nil => intro i; rfl
  | cons p ps ih =>
    intro i
    simp [startupEmission, startupOffsets, ih (i + 1)]

/-- C6: for partitions with backlog sizes `b_1..b_p` at start time and lag ceiling `c`, the
source emits exactly the sum over the partitions of `min(c, b_i)` records before live delivery
begins; in particular four partitions with every `b_i ≥ 60` and `c = 60` yield exactly 240
records. -/
theorem startup_emission_count (ceiling : Nat) (ps : List Partition) :
    (startupEmission ceiling 0 ps).length =
      (ps.map (fun p => min ceiling p.availableBacklog)).sum ∧
    (ps.length = 4 → (∀ p ∈ ps, 60 ≤ p.availableBacklog) →
      (startupEmission 60 0 ps).length = 240) := by
  refine ⟨startupEmission_length ceiling ps 0, ?_⟩
  intro hlen hall
  rw [startupEmission_length 60 ps 0]
  match ps, hlen, hall with
  | [a, b, c, d], _, hall =>
    have ha := hall a (by simp)
    have hb := hall b (by simp)
    have hc := hall c (by simp)
    have hd := hall d (by simp)
    simp only [List.map_cons, List.map_nil, List.sum_cons, List.sum_nil]
    omega

theorem startup_emission_count_witness :
    ([⟨0, 250⟩, ⟨0, 250⟩, ⟨0, 250⟩, ⟨0, 250⟩] : List Partition).length = 4 ∧
    (startupEmission 60 0 [⟨0, 250⟩, ⟨0, 250⟩, ⟨0, 250⟩, ⟨0, 250⟩]).length = 240 :=
  ⟨rfl,
    (startup_emission_count 60 [⟨0, 250⟩, ⟨0, 250⟩, ⟨0, 250⟩, ⟨0, 250⟩]).2 rfl (by decide)⟩

end Firebolt
